import Mathlib

/-!
Shallow embedding of the OpenRXN repository (files `openrxn/connections.py`,
`openrxn/model.py`, `openrxn/systems/ODESystem.py`) and proofs about it.

Physical quantities (pint `Quantity` objects in the source) are modelled by
their rational magnitudes, taken in the code's internal unit system
(volumes in liters, rate constants in liters per second, diffusion
constants in liters·length per second after the `.ito(liter/sec)`
conversion); the unit bookkeeping itself is outside the embedding.
-/

namespace OpenRXN

/-! ## connections.py -/

/-- A `species_rates` dictionary: Species IDs mapped to rate-constant
pairs `(k_out, k_in)` (`connections.py`, class docstrings). Python's
dict is modelled as an association list preserving insertion order. -/
abbrev Rates := List (String × ℚ × ℚ)

/-- `AnisotropicConnection` (`connections.py` lines 25-49): holds a
`species_rates` dictionary of ordered rate pairs. -/
structure AnisotropicConnection where
  species_rates : Rates
deriving DecidableEq, Repr

/-- The body of the helper `_flip_tuple` (`connections.py` lines 41-42):
swaps the two components of a rate pair. -/
def flip_tuple (t : ℚ × ℚ) : ℚ × ℚ := (t.2, t.1)

/-- `AnisotropicConnection.reverse` (`connections.py` lines 44-49), with
Python call semantics made explicit.  `_flip_tuple` is declared with the
single parameter `t` and no `self`, so the call
`self._flip_tuple(self.species_rates[s])` in `reverse` passes two
positional arguments (the bound instance plus the rate tuple) to a
one-parameter function: Python raises `TypeError` on the first loop
iteration.  Hence `reverse` only completes when `species_rates` is
empty; otherwise it raises. -/
def AnisotropicConnection.reverse (a : AnisotropicConnection) :
    Except String AnisotropicConnection :=
  match a.species_rates with
  | [] => Except.ok ⟨[]⟩
  | _ :: _ =>
      Except.error ("TypeError: _flip_tuple() takes 1 positional argument but 2 were given")

/-- `IsotropicConnection` (`connections.py` lines 51-63): after
`__init__` every value of `species_rates` is a pair. -/
structure IsotropicConnection where
  species_rates : Rates
deriving DecidableEq, Repr

/-- Input value for `IsotropicConnection.__init__`: Python accepts either
a scalar rate or a 2-tuple. -/
inductive RateSpec where
  | scalar (k : ℚ)
  | pair (k12 k21 : ℚ)
deriving DecidableEq, Repr

/-- `IsotropicConnection.__init__` (`connections.py` lines 53-63): a
scalar value `k` is replaced by the symmetric tuple `(k, k)`; tuple
values are kept as given. -/
def isotropicInit (sr : List (String × RateSpec)) : IsotropicConnection :=
  ⟨sr.map (fun p =>
    match p.2 with
    | RateSpec.scalar k => (p.1, (k, k))
    | RateSpec.pair a b => (p.1, (a, b)))⟩

/-- `FicksConnection` (`connections.py` lines 65-101): per-species
diffusion constants plus optional surface area and inter-center
distance. -/
structure FicksConnection where
  species_d_constants : List (String × ℚ)
  surface_area : Option ℚ
  ic_distance : Option ℚ
deriving DecidableEq, Repr

/-- `FicksConnection.resolve` (`connections.py` lines 103-115): raises
when `surface_area` or `ic_distance` is `None`; otherwise builds the
rate `d * A / Δx` for every species (the `.ito(liter/sec)` step is the
identity on magnitudes in the internal unit system) and wraps the
scalar rates in an `IsotropicConnection`, whose constructor turns each
scalar into a symmetric pair. -/
def FicksConnection.resolve (f : FicksConnection) :
    Except String IsotropicConnection :=
  match f.surface_area, f.ic_distance with
  | some A, some dx =>
      Except.ok (isotropicInit
        (f.species_d_constants.map (fun p => (p.1, RateSpec.scalar (p.2 * A / dx)))))
  | _, _ => Except.error ("Error!  This connection is not ready to be resolved.")

end OpenRXN

namespace OpenRXN

/-! ## systems/ODESystem.py : the derivative builder and set_q

The classes `Reaction`, `Species`, `State` and the `Compartment` used
by the builder live in repository files that are not part of the
provided sources (`openrxn/reactions.py`, `openrxn/systems/state.py`,
`openrxn/compartments/compartment.py`); the record fields below are
modelled from the spec's data-model section and carry exactly the
attributes `ODESystem._build_dqdt` and `ODESystem.set_q` read. -/

/-- Modelled from the spec: `Reaction` (spec §3) — reactant and product
species (`Species` objects are identified by their IDs, so
`reactants`/`products` are kept as ID lists and `reactant_IDs` /
`product_IDs` coincide with them), parallel stoichiometric-coefficient
lists, and forward/reverse rate constants.  `openrxn/reactions.py` is
not among the provided sources. -/
structure Reaction where
  reactants : List String
  products : List String
  stoich_r : List Nat
  stoich_p : List Nat
  kf : ℚ
  kr : ℚ
deriving DecidableEq, Repr

/-- `r.reactant_IDs` — the IDs of the reactant species. -/
def Reaction.reactant_IDs (r : Reaction) : List String := r.reactants

/-- `r.product_IDs` — the IDs of the product species. -/
def Reaction.product_IDs (r : Reaction) : List String := r.products

/-- One entry of a compartment's `connections` dictionary as read by
`_build_dqdt` (`ODESystem.py` lines 152-158): the neighbor's label
(the dictionary key `other_lab`), the neighbor compartment reference
`conn[0]` (of which only `.volume` is read), and the connection
`conn[1]` (of which only `.species_rates` is read). -/
structure ConnEntry where
  other_lab : String
  other_volume : ℚ
  species_rates : Rates
deriving DecidableEq, Repr

/-- The compartment attributes read by `_build_dqdt`
(`ODESystem.py` lines 88-158): `ID`, `volume`, `reactions`,
`connections`. -/
structure CompartmentODE where
  ID : String
  volume : ℚ
  reactions : List Reaction
  connections : List ConnEntry
deriving DecidableEq, Repr

/-- One source or sink term `(k_j, [q_k0, q_k1, ...])` handed to
`DerivFuncBuilder` (`ODESystem.py` lines 72-77). -/
structure Term where
  rate : ℚ
  q_list : List Nat
deriving DecidableEq, Repr

/-- The accumulation loop shared by all four reaction branches of
`_build_dqdt` (e.g. lines 100-104):

    q_list = []; n = 0
    for j,x in enumerate(species):
        q_list += [index[c.ID][x.ID]] * stoich[j]
        n += stoich[j]

`idx` is the curried `self.state.index[c.ID]` lookup.  (When the
stoichiometry list is shorter than the species list Python raises
IndexError; the fold below instead stops at the shorter list — all
claims are stated for the well-formed equal-length case, the spec's
invariant.) -/
def rxn_accum (idx : String → Nat) (species : List String) (stoich : List Nat) :
    List Nat × Nat :=
  (species.zip stoich).foldl
    (fun acc p => (acc.1 ++ List.replicate p.2 (idx p.1), acc.2 + p.2)) ([], 0)

/-- The volume-factor branch of `_build_dqdt` (e.g. lines 105-109):

    if n - 1 > 0: append (k / c.volume**(n-1), q_list)
    else:         append (k, q_list)
-/
def term_of (k V : ℚ) (n : Nat) (ql : List Nat) : Term :=
  if n - 1 > 0 then ⟨k / V ^ (n - 1), ql⟩ else ⟨k, ql⟩

/-- The sink terms contributed by the reactions of compartment `c` to
the state position for species `s` (`ODESystem.py` lines 96-149):
per reaction, the forward direction when `s` is a reactant (lines
97-109) or the reverse direction when `s` is (only) a product (lines
138-149), each guarded by a positive rate constant.  One appended term
per matching reaction, in reaction order, so the loop is a
`filterMap`. -/
def reactionSinks (idx2 : String → String → Nat) (c : CompartmentODE) (s : String) :
    List Term :=
  c.reactions.filterMap (fun r =>
    if s ∈ r.reactant_IDs then
      if r.kf > 0 then
        some (term_of r.kf c.volume (rxn_accum (idx2 c.ID) r.reactants r.stoich_r).2
          (rxn_accum (idx2 c.ID) r.reactants r.stoich_r).1)
      else none
    else if s ∈ r.product_IDs then
      if r.kr > 0 then
        some (term_of r.kr c.volume (rxn_accum (idx2 c.ID) r.products r.stoich_p).2
          (rxn_accum (idx2 c.ID) r.products r.stoich_p).1)
      else none
    else none)

/-- The source terms contributed by the reactions of compartment `c`
(`ODESystem.py` lines 111-122 for the reverse direction when `s` is a
reactant, lines 125-136 for the forward direction when `s` is a
product). -/
def reactionSources (idx2 : String → String → Nat) (c : CompartmentODE) (s : String) :
    List Term :=
  c.reactions.filterMap (fun r =>
    if s ∈ r.reactant_IDs then
      if r.kr > 0 then
        some (term_of r.kr c.volume (rxn_accum (idx2 c.ID) r.products r.stoich_p).2
          (rxn_accum (idx2 c.ID) r.products r.stoich_p).1)
      else none
    else if s ∈ r.product_IDs then
      if r.kf > 0 then
        some (term_of r.kf c.volume (rxn_accum (idx2 c.ID) r.reactants r.stoich_r).2
          (rxn_accum (idx2 c.ID) r.reactants r.stoich_r).1)
      else none
    else none)

/-- The "out" diffusion sinks (`ODESystem.py` lines 152-155): for every
connection entry whose `species_rates` contains `s`, one term
`(k_out / c.volume, [i])`, `i` the state position being built. -/
def connSinks (c : CompartmentODE) (s : String) (i : Nat) : List Term :=
  c.connections.filterMap (fun e =>
    (e.species_rates.lookup s).map (fun kk => Term.mk (kk.1 / c.volume) [i]))

/-- The "in" diffusion sources (`ODESystem.py` lines 157-158): for every
connection entry whose `species_rates` contains `s`, one term
`(k_in / conn[0].volume, [index[other_lab][s]])`. -/
def connSources (idx2 : String → String → Nat) (c : CompartmentODE) (s : String) :
    List Term :=
  c.connections.filterMap (fun e =>
    (e.species_rates.lookup s).map (fun kk =>
      Term.mk (kk.2 / e.other_volume) [idx2 e.other_lab s]))

/-- The full per-state-position body of the `_build_dqdt` loop
(`ODESystem.py` lines 86-160): the `(sources, sinks)` pair passed to
`DerivFuncBuilder`, reaction terms first (appended by the reaction
loop), connection terms second. -/
def build_dqdt_entry (idx2 : String → String → Nat) (c : CompartmentODE)
    (s : String) (i : Nat) : List Term × List Term :=
  (reactionSources idx2 c s ++ connSources idx2 c s,
   reactionSinks idx2 c s ++ connSinks c s i)

/-- Avogadro's constant as hard-coded in `ODESystem.__init__`
(line 21): `self.NA = 6.022e23`, an exact decimal. -/
def NA : ℚ := 6022 * 10 ^ 20

/-- The unit tags `set_q` distinguishes (`ODESystem.py` lines 40-47):
`mol/L`, `mol`, `dimensionless`, or any other pint dimension. -/
inductive QUnits where
  | mol_per_L
  | mol
  | dimensionless
  | other (name : String)
deriving DecidableEq, Repr

/-- The argument `Q` of `set_q`: either a bare number (no `units`
attribute, line 48-49 multiplies it by `dimensionless`) or a pint
quantity with a magnitude and a unit tag. -/
inductive QInput where
  | bare (x : ℚ)
  | withUnits (mag : ℚ) (u : QUnits)
deriving DecidableEq, Repr

/-- The system state read and written by `set_q`: per-index compartment
ID (`state.compartment`), per-ID compartment volume
(`model.compartments[...].volume`, in liters) and the value array
`state.q_val`. -/
structure SysState where
  compartment : Nat → String
  volumeOf : String → ℚ
  q_val : Nat → ℚ

/-- `ODESystem.set_q` (`ODESystem.py` lines 25-60).  Flag resolution
(lines 38-49): `mol/L` sets both `mult_volume` and `mult_na`; `mol`
sets only `mult_na`; any other non-dimensionless unit raises
ValueError; a bare value is taken as dimensionless.  The loop (lines
51-60) then writes, for each index `i`,
`(volume(compartment[i]) * Q or Q) * NA-or-1` into `q_val[i]`. -/
def set_q (sys : SysState) (idxs : List Nat) (Q : QInput) :
    Except String SysState :=
  let flags : Except String (Bool × Bool × ℚ) :=
    match Q with
    | QInput.withUnits mag u =>
        if u = QUnits.mol_per_L then Except.ok (true, true, mag)
        else if u = QUnits.mol then Except.ok (false, true, mag)
        else if u ≠ QUnits.dimensionless then
          Except.error ("Quantity values should be either mol, mol/L or dimensionless")
        else Except.ok (false, false, mag)
    | QInput.bare x => Except.ok (false, false, x)
  match flags with
  | Except.error e => Except.error e
  | Except.ok (mv, mna, mag) =>
      Except.ok { sys with
        q_val := idxs.foldl (fun qv i =>
          Function.update qv i
            ((if mv then sys.volumeOf (sys.compartment i) * mag else mag) *
             (if mna then NA else 1))) sys.q_val }

/-! ## model.py : Model, FlatModel, flattening, Ficks resolution

The `Compartment` class itself lives in
`openrxn/compartments/compartment.py`, which is not among the provided
sources; its record below is modelled from the spec's data model
(identity, optional array ID, volume, per-axis bounding box, reactions,
neighbor-ID-keyed connections).  Everything operating on it below is
translated from `openrxn/model.py`. -/

/-- A spatial bounding box: per-axis `(min, max)` pairs, the
`pos[i][0] / pos[i][1]` values read by `Model.resolve_ficks`
(`model.py` lines 107-131). -/
structure Box where
  x : ℚ × ℚ
  y : ℚ × ℚ
  z : ℚ × ℚ
deriving DecidableEq, Repr

/-- `pos[i]` — axis indexing of a bounding box. -/
def Box.axis (b : Box) (i : Fin 3) : ℚ × ℚ :=
  if i.val = 0 then b.x else if i.val = 1 then b.y else b.z

/-- Modelled from the spec: the compartment's stored face area
`surface_area['yz']` (the `Compartment` class is not among the provided
sources) — the area of the box face orthogonal to the x axis. -/
def Box.faceYZ (b : Box) : ℚ := (b.y.2 - b.y.1) * (b.z.2 - b.z.1)

/-- Modelled from the spec: the stored face area `surface_area['xz']`. -/
def Box.faceXZ (b : Box) : ℚ := (b.x.2 - b.x.1) * (b.z.2 - b.z.1)

/-- Modelled from the spec: the stored face area `surface_area['xy']`. -/
def Box.faceXY (b : Box) : ℚ := (b.x.2 - b.x.1) * (b.y.2 - b.y.1)

/-- The tagged union of connection kinds held in a compartment's
`connections` dictionary (spec §9 suggests exactly this variant view;
the Python code discriminates with `isinstance(conn[1], FicksConnection)`
at `model.py` line 91). -/
inductive Conn where
  | iso (c : IsotropicConnection)
  | aniso (c : AnisotropicConnection)
  | ficks (f : FicksConnection)
deriving DecidableEq, Repr

/-- The `species_rates` of a connection; a pending Ficks connection has
none until resolved. -/
def Conn.rates : Conn → Rates
  | Conn.iso c => c.species_rates
  | Conn.aniso c => c.species_rates
  | Conn.ficks _ => []

/-- Modelled from the spec: `Compartment` (spec §3) — identity, optional
array ID, volume, bounding box, active reactions, and a
neighbor-ID-keyed connection table (the dictionary
`{neighbor_ID: (neighbor_compartment, connection)}`; the neighbor
reference is recovered here by looking the key up in the enclosing
model, per the spec's arena design note). -/
structure Compartment where
  ID : String
  array_ID : Option String
  volume : ℚ
  pos : Box
  reactions : List Reaction
  connections : List (String × Conn)
deriving DecidableEq, Repr

/-- Modelled from the spec: `makeID` from `openrxn/compartments/ID.py`
(not among the provided sources) — the fully-qualified flat ID:
`{array_ID}-{compartment_ID_string}` for array members, the bare ID for
standalone compartments (`model.py` FlatModel docstring). -/
def makeID (arrayID : Option String) (id0 : String) : String :=
  match arrayID with
  | none => id0
  | some a => a ++ ("-") ++ id0

/-- Modelled from the spec: `Compartment.copy(ID=newID,
delete_array_ID=True)` as used at `model.py` line 168 — the copy
carries the new flat ID and is detached from its array; connection keys
are already fully-qualified neighbor IDs. -/
def Compartment.copy (c : Compartment) (newID : String) : Compartment :=
  { c with ID := newID, array_ID := none }

/-- The errors `Model.flatten` can raise (`model.py` lines 82-146),
kept structured: duplicate flat ID, missing referenced compartments,
or a geometric/resolution failure. -/
inductive FlattenErr where
  | dup (id0 : String)
  | missing (ids : List String)
  | geom (msg : String)
deriving DecidableEq, Repr

/-- `FlatModel` (`model.py` lines 148-201): a flat association of
fully-qualified compartment IDs to compartments. -/
structure FlatModel where
  compartments : List (String × Compartment)
deriving DecidableEq, Repr

/-- `FlatModel.add_compartment` (`model.py` lines 164-168): rejects a
duplicate flat ID, otherwise stores a renamed copy under the
fully-qualified ID. -/
def FlatModel.add_compartment (fm : FlatModel) (c : Compartment) :
    Except FlattenErr FlatModel :=
  let newID := makeID c.array_ID c.ID
  if (fm.compartments.lookup newID).isSome then
    Except.error (FlattenErr.dup newID)
  else
    Except.ok ⟨fm.compartments ++ [(newID, c.copy newID)]⟩

/-- `FlatModel.add_compartments` (`model.py` lines 170-172): add the
compartments in order, stopping at the first raised error. -/
def FlatModel.add_compartments (fm : FlatModel) : List Compartment →
    Except FlattenErr FlatModel
  | [] => Except.ok fm
  | c :: rest =>
      match fm.add_compartment c with
      | Except.error e => Except.error e
      | Except.ok fm2 => fm2.add_compartments rest

/-- `FlatModel.find_missing_compartments` (`model.py` lines 174-183):
every connection key of every compartment that is not itself a key of
the flat map, in traversal order. -/
def FlatModel.find_missing_compartments (fm : FlatModel) : List String :=
  fm.compartments.foldl (fun acc p =>
    acc ++ p.2.connections.filterMap (fun q =>
      if (fm.compartments.lookup q.1).isSome then none else some q.1)) []

/-- `pos1[0][1] == pos2[0][0] or pos1[0][0] == pos2[0][1]`
(`model.py` line 112): edge-to-edge contact along x. -/
def touchX (p1 p2 : Box) : Bool :=
  p1.x.2 == p2.x.1 || p1.x.1 == p2.x.2

/-- Edge-to-edge contact along y (`model.py` line 116). -/
def touchY (p1 p2 : Box) : Bool :=
  p1.y.2 == p2.y.1 || p1.y.1 == p2.y.2

/-- Edge-to-edge contact along z (`model.py` line 120). -/
def touchZ (p1 p2 : Box) : Bool :=
  p1.z.2 == p2.z.1 || p1.z.1 == p2.z.2

/-- The surface-area branch of `Model.resolve_ficks` (`model.py` lines
110-125): an `if/elif/elif/else` chain over the axes x, y, z; the first
axis showing contact selects the face, and only when no axis touches is
an error raised. -/
def computeSurfaceArea (c1 c2 : Compartment) : Except String ℚ :=
  if touchX c1.pos c2.pos then
    Except.ok (min c1.pos.faceYZ c2.pos.faceYZ)
  else if touchY c1.pos c2.pos then
    Except.ok (min c1.pos.faceXZ c2.pos.faceXZ)
  else if touchZ c1.pos c2.pos then
    Except.ok (min c1.pos.faceXY c2.pos.faceXY)
  else
    Except.error ("Error! Unable to determine adjoining face for regions")

/-- One per-axis center displacement
`0.5*(pos1[i][0]+pos1[i][1]) - 0.5*(pos2[i][0]+pos2[i][1])`
(`model.py` lines 130-131). -/
def axisDisp (a1 a2 : ℚ × ℚ) : ℚ :=
  (1/2) * (a1.1 + a1.2) - (1/2) * (a2.1 + a2.2)

/-- The periodic wrap of `model.py` lines 137-140:

    if dc*2 < -box_len: dc += box_len
    elif dc*2 > box_len: dc -= box_len
-/
def wrap (L dc : ℚ) : ℚ :=
  if dc * 2 < -L then dc + L else if dc * 2 > L then dc - L else dc

/-- The wrap applied only on periodic axes (`model.py` line 136). -/
def wrapIf (per : Bool) (L dc : ℚ) : ℚ :=
  if per then wrap L dc else dc

/-- The displacement on axis `i` between two boxes. -/
def dispAt (b1 b2 : Box) (i : Fin 3) : ℚ :=
  axisDisp (b1.axis i) (b2.axis i)

/-- The (possibly wrapped) displacement on axis `i`. -/
def wdispAt (per : Fin 3 → Bool) (L : Fin 3 → ℚ) (b1 b2 : Box) (i : Fin 3) : ℚ :=
  wrapIf (per i) (L i) (dispAt b1 b2 i)

/-- The accumulation `conn.ic_distance += dc**2` over the three axes
(`model.py` lines 134-141), in loop order starting from 0. -/
def icDistSq (per : Fin 3 → Bool) (L : Fin 3 → ℚ) (b1 b2 : Box) : ℚ :=
  ((0 + wdispAt per L b1 b2 0 ^ 2) + wdispAt per L b1 b2 1 ^ 2) +
    wdispAt per L b1 b2 2 ^ 2

/-- `conn.ic_distance = np.sqrt(conn.ic_distance)` (`model.py` line
142); the floating-point square root is abstracted as a parameter
`sq`. -/
def icDist (sq : ℚ → ℚ) (per : Fin 3 → Bool) (L : Fin 3 → ℚ) (b1 b2 : Box) : ℚ :=
  sq (icDistSq per L b1 b2)

/-- The surface-area half of `Model.resolve_ficks` (`model.py` lines
110-125): keep a bound area, otherwise derive it geometrically. -/
def surfaceAreaOf (c1 c2 : Compartment) (f : FicksConnection) : Except String ℚ :=
  match f.surface_area with
  | some A => Except.ok A
  | none => computeSurfaceArea c1 c2

/-- The geometry-completion part of `Model.resolve_ficks` (`model.py`
lines 107-142): fill in `surface_area` and `ic_distance` when absent,
leaving bound values untouched. -/
def completeFicks (sq : ℚ → ℚ) (per : Fin 3 → Bool) (L : Fin 3 → ℚ)
    (c1 c2 : Compartment) (f : FicksConnection) : Except String FicksConnection :=
  match surfaceAreaOf c1 c2 f with
  | Except.error e => Except.error e
  | Except.ok A =>
      let dx : ℚ :=
        match f.ic_distance with
        | some d0 => d0
        | none => icDist sq per L c1.pos c2.pos
      Except.ok { f with surface_area := some A, ic_distance := some dx }

/-- Modelled from the spec: `Compartment.connect` keyed storage (the
`Compartment` class is not among the provided sources) — install a
connection under a neighbor label, replacing an existing entry (no
overwrite warning, `warn_overwrite=False` at `model.py` lines 145-146)
or appending a fresh one. -/
def replaceOrAdd (conns : List (String × Conn)) (lab : String) (k : Conn) :
    List (String × Conn) :=
  if (conns.lookup lab).isSome then
    conns.map (fun p => if p.1 = lab then (p.1, k) else p)
  else conns ++ [(lab, k)]

/-- Install a connection on compartment `cid` of the flat map under
label `lab` (one `c.connect(...)` call of `model.py` lines 145-146). -/
def setConn (m : List (String × Compartment)) (cid lab : String) (k : Conn) :
    List (String × Compartment) :=
  m.map (fun p =>
    if p.1 = cid then
      (p.1, { p.2 with connections := replaceOrAdd p.2.connections lab k })
    else p)

/-- `Model` (`model.py` lines 14-66): standalone compartments,
compartment arrays (each an ID plus its member compartments), the
shared periodicity flags and box lengths. -/
structure Model where
  compartments : List (String × Compartment)
  arrays : List (String × List Compartment)
  periodic : Fin 3 → Bool
  box_len : Fin 3 → ℚ

/-- Python error classes raised by `Model.add_compartment`. -/
inductive PyErr where
  | valueError (msg : String)
  | attributeError (msg : String)
deriving DecidableEq, Repr

/-- `Model.add_compartment` (`model.py` lines 63-66): a duplicate ID
raises ValueError; any fresh ID reaches the assignment
`self.comparments[compartment.ID] = compartment`, whose attribute
lookup on the misspelled name `comparments` (never created by
`__init__`) raises AttributeError.  No branch stores the compartment
or returns normally. -/
def Model.add_compartment (m : Model) (c : Compartment) : Except PyErr Model :=
  if (m.compartments.lookup c.ID).isSome then
    Except.error (PyErr.valueError
      ("Error! Duplicate compartment ID in model (" ++ c.ID ++ (")")))
  else
    Except.error (PyErr.attributeError
      ("Model object has no attribute comparments"))

/-- Resolution of one connection label of one flat compartment (the
body of the loop at `model.py` lines 88-92 plus `resolve_ficks`, lines
96-146): a non-Ficks connection is skipped; a Ficks connection has its
geometry completed, is resolved to an `IsotropicConnection`, and the
result is installed symmetrically on both end compartments of the
current map. -/
def resolveConnLabel (sq : ℚ → ℚ) (per : Fin 3 → Bool) (L : Fin 3 → ℚ)
    (m : List (String × Compartment)) (cid lab : String) :
    Except FlattenErr (List (String × Compartment)) :=
  match m.lookup cid with
  | none => Except.ok m
  | some c1 =>
      match c1.connections.lookup lab with
      | none => Except.ok m
      | some (Conn.ficks f) =>
          match m.lookup lab with
          | none => Except.error (FlattenErr.missing [lab])
          | some c2 =>
              match completeFicks sq per L c1 c2 f with
              | Except.error e => Except.error (FlattenErr.geom e)
              | Except.ok f2 =>
                  match f2.resolve with
                  | Except.error e => Except.error (FlattenErr.geom e)
                  | Except.ok iso =>
                      Except.ok (setConn (setConn m cid lab (Conn.iso iso))
                        lab c1.ID (Conn.iso iso))
      | some _ => Except.ok m

/-- Resolution sweep over a list of connection labels of one
compartment (`model.py` lines 89-92), reading the current map at every
step the way the Python loop reads the live mutated objects. -/
def resolveLabels (sq : ℚ → ℚ) (per : Fin 3 → Bool) (L : Fin 3 → ℚ)
    (m : List (String × Compartment)) (cid : String) :
    List String → Except FlattenErr (List (String × Compartment))
  | [] => Except.ok m
  | lab :: rest =>
      match resolveConnLabel sq per L m cid lab with
      | Except.error e => Except.error e
      | Except.ok m2 => resolveLabels sq per L m2 cid rest

/-- Resolution sweep over one compartment's connection labels
(`model.py` lines 88-92). -/
def resolveCompartment (sq : ℚ → ℚ) (per : Fin 3 → Bool) (L : Fin 3 → ℚ)
    (m : List (String × Compartment)) (cid : String) :
    Except FlattenErr (List (String × Compartment)) :=
  match m.lookup cid with
  | none => Except.ok m
  | some c => resolveLabels sq per L m cid (c.connections.map Prod.fst)

/-- The outer resolution loop of `Model.flatten` (`model.py` line 88)
over the flat compartment IDs. -/
def resolveAll (sq : ℚ → ℚ) (per : Fin 3 → Bool) (L : Fin 3 → ℚ)
    (m : List (String × Compartment)) :
    List String → Except FlattenErr (List (String × Compartment))
  | [] => Except.ok m
  | cid :: rest =>
      match resolveCompartment sq per L m cid with
      | Except.error e => Except.error e
      | Except.ok m2 => resolveAll sq per L m2 rest

/-- The array part of the namespace-building phase (`model.py` lines
79-80). -/
def addArrays (fm : FlatModel) : List (String × List Compartment) →
    Except FlattenErr FlatModel
  | [] => Except.ok fm
  | a :: rest =>
      match fm.add_compartments a.2 with
      | Except.error e => Except.error e
      | Except.ok fm2 => addArrays fm2 rest

/-- The namespace-building phase of `Model.flatten` (`model.py` lines
73-80): standalone compartments first, then every array's members. -/
def buildNamespace (mdl : Model) : Except FlattenErr FlatModel :=
  match (FlatModel.mk []).add_compartments (mdl.compartments.map Prod.snd) with
  | Except.error e => Except.error e
  | Except.ok fm0 => addArrays fm0 mdl.arrays

/-- `Model.flatten` (`model.py` lines 68-94): build the flat namespace,
fail on any referenced-but-missing compartment, then resolve every
remaining `FicksConnection` in place. -/
def Model.flatten (sq : ℚ → ℚ) (mdl : Model) : Except FlattenErr FlatModel :=
  match buildNamespace mdl with
  | Except.error e => Except.error e
  | Except.ok fm =>
      let missing := fm.find_missing_compartments
      if missing.length > 0 then Except.error (FlattenErr.missing missing)
      else
        match resolveAll sq mdl.periodic mdl.box_len fm.compartments
            (fm.compartments.map Prod.fst) with
        | Except.error e => Except.error e
        | Except.ok m2 => Except.ok ⟨m2⟩

/-- The observable rate data of a flat model: per compartment, per
connection label, the resolved species rates (claim C3's notion of
"resolved rate constants"). -/
def allRates (fm : FlatModel) : List (String × List (String × Rates)) :=
  fm.compartments.map (fun p =>
    (p.1, p.2.connections.map (fun q => (q.1, q.2.rates))))

/-! ## Concrete instances used by witnesses -/

/-- A concrete nested state index: species "A" at position 0, "B" at 1
in every compartment. -/
def exIdx : String → String → Nat :=
  fun _ sid => if sid = ("A") then 0 else if sid = ("B") then 1 else 2

/-- A concrete order-2 reaction `A + A → B` with `kf = 4`, `kr = 0`. -/
def exRxn : Reaction := ⟨[("A")], [("B")], [2], [1], 4, 0⟩

/-- A concrete connection entry to neighbor "c2" (volume 5) carrying
rates `(7, 11)` for species "A". -/
def exConnEntry : ConnEntry := ⟨("c2"), 5, [(("A"), 7, 11)]⟩

/-- A concrete compartment of volume 3 holding `exRxn` and
`exConnEntry`. -/
def exCompODE : CompartmentODE := ⟨("c1"), 3, [exRxn], [exConnEntry]⟩

/-- Unit box at the origin. -/
def exBox0 : Box := ⟨(0, 1), (0, 1), (0, 1)⟩

/-- Unit box adjoining `exBox0` on the x axis. -/
def exBox1 : Box := ⟨(1, 2), (0, 1), (0, 1)⟩

/-- A pending Ficks connection for species "A" with diffusion constant
2 and unbound geometry. -/
def exFicks : FicksConnection := ⟨[(("A"), 2)], none, none⟩

/-- Array member "0" of array "arr", connected to its neighbor by
`exFicks`. -/
def exComp0 : Compartment :=
  ⟨("0"), some ("arr"), 1, exBox0, [], [(("arr-1"), Conn.ficks exFicks)]⟩

/-- Array member "1" of array "arr". -/
def exComp1 : Compartment :=
  ⟨("1"), some ("arr"), 1, exBox1, [], [(("arr-0"), Conn.ficks exFicks)]⟩

/-- A non-periodic model holding the two-compartment array; its Ficks
connection is resolvable from the geometry. -/
def exModelOK : Model :=
  ⟨[], [(("arr"), [exComp0, exComp1])], fun _ => false, fun _ => 0⟩

/-- The flat namespace built from `exModelOK` (explicit form). -/
def exFM0 : FlatModel :=
  ⟨[(("arr-0"), exComp0.copy ("arr-0")), (("arr-1"), exComp1.copy ("arr-1"))]⟩

/-- Periodicity flags: only the x axis is periodic. -/
def exPer : Fin 3 → Bool := fun i => i.val == 0

/-- Box length 10 on every axis. -/
def exL : Fin 3 → ℚ := fun _ => 10

/-- Box centered at x = 8. -/
def exBoxP1 : Box := ⟨(15/2, 17/2), (0, 1), (0, 1)⟩

/-- Box centered at x = 1. -/
def exBoxP2 : Box := ⟨(1/2, 3/2), (0, 1), (0, 1)⟩

/-- Compartment at `exBoxP1`. -/
def exCompP1 : Compartment := ⟨("p1"), none, 1, exBoxP1, [], []⟩

/-- Compartment at `exBoxP2`. -/
def exCompP2 : Compartment := ⟨("p2"), none, 1, exBoxP2, [], []⟩

/-- A Ficks connection with bound area 1 but unbound distance. -/
def exFicksA : FicksConnection := ⟨[(("A"), 2)], some 1, none⟩

/-- Box touching `exBox0` edge-to-edge on both the x and the y axis. -/
def exBoxXY2 : Box := ⟨(1, 2), (1, 2), (0, 1)⟩

/-- Compartment at the unit box. -/
def exCompXY1 : Compartment := ⟨("q1"), none, 1, exBox0, [], []⟩

/-- Compartment at `exBoxXY2`: two-axis contact with `exCompXY1`. -/
def exCompXY2 : Compartment := ⟨("q2"), none, 1, exBoxXY2, [], []⟩

/-- A compartment whose connection refers to the undeclared ID
"ghost". -/
def exCompGhost : Compartment :=
  ⟨("c1"), none, 1, exBox0, [], [(("ghost"), Conn.iso ⟨[(("A"), 1, 1)]⟩)]⟩

/-- A model with a dangling connection reference. -/
def exModelMissing : Model :=
  ⟨[(("c1"), exCompGhost)], [], fun _ => false, fun _ => 0⟩

/-- Namespace built from `exModelMissing`. -/
def exFMghost : FlatModel := ⟨[(("c1"), exCompGhost.copy ("c1"))]⟩

/-- A concrete system state: every index sits in compartment "c1" of
volume 5 liters, all counts zero. -/
def exSys : SysState := ⟨fun _ => ("c1"), fun _ => 5, fun _ => 0⟩

/-- A plain standalone compartment with ID "a". -/
def exCompA : Compartment := ⟨("a"), none, 1, exBox0, [], []⟩

/-- A model already holding the ID "a". -/
def exModelDup : Model := ⟨[(("a"), exCompA)], [], fun _ => false, fun _ => 0⟩

/-- A model with no compartments. -/
def exModelEmpty : Model := ⟨[], [], fun _ => false, fun _ => 0⟩

/-! ## Theorems about connections.py -/

/-- C5: `FicksConnection.resolve` raises an error if and only if
`surface_area` or `ic_distance` is unbound (`None`); when both are
bound it returns an `IsotropicConnection` whose rate entry for each
species `s` with diffusion constant `d` is the symmetric pair
`(d·A/Δx, d·A/Δx)` in volume/time units. -/
theorem ficks_resolve_spec (f : FicksConnection) :
    ((∃ e, f.resolve = Except.error e) ↔
      (f.surface_area = none ∨ f.ic_distance = none)) ∧
    (∀ A dx, f.surface_area = some A → f.ic_distance = some dx →
      ∃ iso, f.resolve = Except.ok iso ∧
        iso.species_rates =
          f.species_d_constants.map (fun p => (p.1, (p.2 * A / dx, p.2 * A / dx)))) := by
  constructor
  · constructor
    · intro ⟨e, he⟩
      unfold FicksConnection.resolve at he
      cases hA : f.surface_area with
      | none => exact Or.inl rfl
      | some A =>
        cases hd : f.ic_distance with
        | none => exact Or.inr rfl
        | some dx => simp [hA, hd] at he
    · intro h
      unfold FicksConnection.resolve
      rcases h with h | h <;> rw [h]
      · exact ⟨_, rfl⟩
      · cases f.surface_area <;> exact ⟨_, rfl⟩
  · intro A dx hA hd
    refine ⟨_, by rw [FicksConnection.resolve, hA, hd], ?_⟩
    unfold isotropicInit
    rw [List.map_map]
    rfl

/-- Witness for C5: a concrete Ficks connection with area 3 and distance
2 resolves to the symmetric pair (for species "A" with D = 5:
5·3/2 = 15/2), and dropping the area makes resolution fail. -/
theorem ficks_resolve_spec_witness :
    (∃ iso,
      FicksConnection.resolve ⟨[("A", 5)], some 3, some 2⟩ = Except.ok iso ∧
      iso.species_rates = [("A", (15/2, 15/2))]) ∧
    (∃ e, FicksConnection.resolve ⟨[("A", 5)], none, some 2⟩ = Except.error e) := by
  constructor
  · obtain ⟨iso, h1, h2⟩ :=
      (ficks_resolve_spec ⟨[("A", 5)], some 3, some 2⟩).2 3 2 rfl rfl
    refine ⟨iso, h1, ?_⟩
    rw [h2]
    norm_num
  · exact (ficks_resolve_spec ⟨[("A", 5)], none, some 2⟩).1.2 (Or.inl rfl)

/-! ## Helper lemmas (shared) -/

/-- A `filterMap` produces one output element per input on which the
step function fires. -/
theorem length_filterMap_isSome {α β : Type} (F : α → Option β) (l : List α) :
    (l.filterMap F).length = (l.filter (fun e => (F e).isSome)).length := by
  induction l with
  | nil => rfl
  | cons x xs ih =>
      cases h : F x <;> simp [List.filterMap_cons, List.filter_cons, h, ih]

/-- Unfolding of the `rxn_accum` fold with a general accumulator. -/
theorem rxn_accum_go (idx : String → Nat) (l : List (String × Nat)) :
    ∀ acc : List Nat × Nat,
      l.foldl (fun acc p => (acc.1 ++ List.replicate p.2 (idx p.1), acc.2 + p.2)) acc =
        (acc.1 ++ (l.map (fun p => List.replicate p.2 (idx p.1))).flatten,
         acc.2 + (l.map Prod.snd).sum) := by
  induction l with
  | nil => intro acc; simp
  | cons x xs ih => intro acc; simp [ih, List.append_assoc, Nat.add_assoc]

/-- `rxn_accum` builds the flattened replicate lists and the total
stoichiometric count. -/
theorem rxn_accum_eq (idx : String → Nat) (sp : List String) (st : List Nat) :
    rxn_accum idx sp st =
      (((sp.zip st).map (fun p => List.replicate p.2 (idx p.1))).flatten,
       ((sp.zip st).map Prod.snd).sum) := by
  unfold rxn_accum
  rw [rxn_accum_go]
  simp

/-- Every element of the flattened replicate lists is the image of a
participating species. -/
theorem mem_flatten_replicate {f : String → Nat} {sp : List String} {st : List Nat}
    {a : Nat}
    (h : a ∈ ((sp.zip st).map (fun p => List.replicate p.2 (f p.1))).flatten) :
    ∃ y ∈ sp, a = f y := by
  rw [List.mem_flatten] at h
  obtain ⟨s, hs, ha⟩ := h
  rw [List.mem_map] at hs
  obtain ⟨p, hp, rfl⟩ := hs
  exact ⟨p.1, (List.of_mem_zip hp).1, List.eq_of_mem_replicate ha⟩

/-- In the flattened replicate lists, a species' index occurs exactly
its coefficient many times (distinct indices assumed). -/
theorem count_flatten_replicate (f : String → Nat) :
    ∀ (sp : List String) (st : List Nat), st.length = sp.length →
      (sp.map f).Nodup →
      ∀ j (hj : j < sp.length),
        (((sp.zip st).map (fun p => List.replicate p.2 (f p.1))).flatten).count
            (f (sp.get ⟨j, hj⟩)) = st.getD j 0 := by
  intro sp
  induction sp with
  | nil =>
      intro st _ _ j hj
      exact absurd hj (by simp)
  | cons x sp ih =>
      intro st hlen hnd j hj
      cases st with
      | nil => simp at hlen
      | cons m st =>
          have hnotin : f x ∉ sp.map f := (List.nodup_cons.1 (by simpa using hnd)).1
          simp only [List.zip_cons_cons, List.map_cons, List.flatten_cons]
          rw [List.count_append]
          cases j with
          | zero =>
              have hz :
                  (((sp.zip st).map (fun p => List.replicate p.2 (f p.1))).flatten).count
                    (f x) = 0 := by
                rw [List.count_eq_zero]
                intro hmem
                obtain ⟨y, hy, hEq⟩ := mem_flatten_replicate hmem
                exact hnotin (hEq ▸ List.mem_map_of_mem f hy)
              simp [hz, List.count_replicate]
          | succ j' =>
              have hj' : j' < sp.length := by
                simpa [Nat.succ_lt_succ_iff] using hj
              have hmem : f (sp.get ⟨j', hj'⟩) ∈ sp.map f := by
                rw [List.mem_map]
                exact ⟨sp.get ⟨j', hj'⟩, by simp, rfl⟩
              have hne : f x ≠ f (sp.get ⟨j', hj'⟩) := fun hEq => hnotin (hEq ▸ hmem)
              have hlen' : st.length = sp.length := by simpa using hlen
              have hcount := ih st hlen' (List.nodup_cons.1 (by simpa using hnd)).2 j' hj'
              have hget : (x :: sp).get ⟨j' + 1, hj⟩ = sp.get ⟨j', hj'⟩ := rfl
              have hgetD : (m :: st).getD (j' + 1) 0 = st.getD j' 0 := rfl
              rw [hget, hgetD, List.count_replicate, if_neg (by simpa using hne), Nat.zero_add]
              exact hcount

/-- The membership and value description of `connSinks`. -/
theorem connSinks_mem (c : CompartmentODE) (s : String) (i t0 : _) :
    t0 ∈ connSinks c s i ↔
      ∃ e, e ∈ c.connections ∧ ∃ ko ki,
        e.species_rates.lookup s = some (ko, ki) ∧
        t0 = Term.mk (ko / c.volume) [i] := by
  unfold connSinks
  rw [List.mem_filterMap]
  constructor
  · intro ⟨e, he, hmap⟩
    cases h : e.species_rates.lookup s with
    | none => rw [h] at hmap; exact Option.noConfusion hmap
    | some kk =>
        rw [h] at hmap
        exact ⟨e, he, kk.1, kk.2, h, (Option.some_inj.1 hmap).symm⟩
  · intro ⟨e, he, ko, ki, hl, ht⟩
    exact ⟨e, he, by rw [hl, ht]; rfl⟩

/-- The membership and value description of `connSources`. -/
theorem connSources_mem (idx2 : String → String → Nat) (c : CompartmentODE)
    (s : String) (t0 : Term) :
    t0 ∈ connSources idx2 c s ↔
      ∃ e, e ∈ c.connections ∧ ∃ ko ki,
        e.species_rates.lookup s = some (ko, ki) ∧
        t0 = Term.mk (ki / e.other_volume) [idx2 e.other_lab s] := by
  unfold connSources
  rw [List.mem_filterMap]
  constructor
  · intro ⟨e, he, hmap⟩
    cases h : e.species_rates.lookup s with
    | none => rw [h] at hmap; exact Option.noConfusion hmap
    | some kk =>
        rw [h] at hmap
        exact ⟨e, he, kk.1, kk.2, h, (Option.some_inj.1 hmap).symm⟩
  · intro ⟨e, he, ko, ki, hl, ht⟩
    exact ⟨e, he, by rw [hl, ht]; rfl⟩

/-- C9 (code bug): on any `AnisotropicConnection` with a non-empty
`species_rates` dictionary — here the concrete input
`{"A": (1, 2)}` — `reverse()` does not return the swapped-pair
connection; it raises `TypeError`, because `_flip_tuple` is defined
without a `self` parameter and the bound-method call feeds it two
arguments. -/
theorem aniso_reverse_raises :
    AnisotropicConnection.reverse ⟨[("A", (1, 2))]⟩ =
      Except.error ("TypeError: _flip_tuple() takes 1 positional argument but 2 were given") ∧
    ∀ a, AnisotropicConnection.reverse ⟨[("A", (1, 2))]⟩ ≠ Except.ok a := by
  exact ⟨rfl, fun a h => by simp [AnisotropicConnection.reverse] at h⟩

/-! ## Theorems about the derivative builder (ODESystem.py) -/

/-- The rate constant and contributing-index list of a reaction term as
produced by `term_of` on the output of `rxn_accum`: the
volume-corrected rate and the coefficient-many index repetitions. -/
theorem term_of_accum_spec (idx : String → Nat) (V k : ℚ) (sp : List String)
    (st : List Nat) (hlen : st.length = sp.length) :
    (1 < st.sum →
      (term_of k V (rxn_accum idx sp st).2 (rxn_accum idx sp st).1).rate =
        k / V ^ (st.sum - 1)) ∧
    (st.sum = 1 →
      (term_of k V (rxn_accum idx sp st).2 (rxn_accum idx sp st).1).rate = k) ∧
    (term_of k V (rxn_accum idx sp st).2 (rxn_accum idx sp st).1).q_list =
      ((sp.zip st).map (fun p => List.replicate p.2 (idx p.1))).flatten ∧
    ((sp.map idx).Nodup →
      ∀ j (hj : j < sp.length),
        ((term_of k V (rxn_accum idx sp st).2 (rxn_accum idx sp st).1).q_list).count
          (idx (sp.get ⟨j, hj⟩)) = st.getD j 0) := by
  have hacc := rxn_accum_eq idx sp st
  have hsnd : (sp.zip st).map Prod.snd = st := List.map_snd_zip sp st (le_of_eq hlen)
  have h2 : (rxn_accum idx sp st).2 = st.sum := by rw [hacc, hsnd]
  have h1 : (rxn_accum idx sp st).1 =
      ((sp.zip st).map (fun p => List.replicate p.2 (idx p.1))).flatten := by
    rw [hacc]
  have hq : (term_of k V (rxn_accum idx sp st).2 (rxn_accum idx sp st).1).q_list =
      (rxn_accum idx sp st).1 := by
    unfold term_of
    split <;> rfl
  refine ⟨?_, ?_, ?_, ?_⟩
  · intro hn
    rw [h2, h1]
    unfold term_of
    rw [if_pos (show st.sum - 1 > 0 by omega)]
  · intro hn
    rw [h2, h1]
    unfold term_of
    rw [if_neg (show ¬st.sum - 1 > 0 by omega)]
  · rw [hq, h1]
  · intro hnd j hj
    rw [hq, h1]
    exact count_flatten_replicate idx sp st hlen hnd j hj

/-- C1: every reaction term generated by the derivative builder for a
state position (compartment `c`, species `s`) comes from one direction
(`kf` over the reactants or `kr` over the products) of a reaction of
`c` with a positive rate constant; its rate constant is
`k / V^(n-1)` for total stoichiometric order `n > 1` and the raw `k`
for `n = 1`, and its contributing-index list repeats each participating
species' state index exactly its stoichiometric coefficient many times
(stoichiometry lists of the spec's invariant length; the count
statement holds whenever the participating species map to distinct
state indices). -/
theorem reaction_terms_spec (idx2 : String → String → Nat) (c : CompartmentODE)
    (s : String)
    (hlen : ∀ r ∈ c.reactions,
      r.stoich_r.length = r.reactants.length ∧ r.stoich_p.length = r.products.length) :
    ∀ t ∈ reactionSinks idx2 c s ++ reactionSources idx2 c s,
      ∃ k sp st,
        (∃ r ∈ c.reactions,
          (k = r.kf ∧ sp = r.reactants ∧ st = r.stoich_r) ∨
          (k = r.kr ∧ sp = r.products ∧ st = r.stoich_p)) ∧
        0 < k ∧ st.length = sp.length ∧
        (1 < st.sum → t.rate = k / c.volume ^ (st.sum - 1)) ∧
        (st.sum = 1 → t.rate = k) ∧
        t.q_list = ((sp.zip st).map (fun p => List.replicate p.2 (idx2 c.ID p.1))).flatten ∧
        ((sp.map (idx2 c.ID)).Nodup →
          ∀ j (hj : j < sp.length),
            t.q_list.count (idx2 c.ID (sp.get ⟨j, hj⟩)) = st.getD j 0) := by
  intro t ht
  rw [List.mem_append] at ht
  rcases ht with ht | ht
  · unfold reactionSinks at ht
    rw [List.mem_filterMap] at ht
    obtain ⟨r, hr, hfm⟩ := ht
    by_cases hre : s ∈ r.reactant_IDs
    · rw [if_pos hre] at hfm
      by_cases hkf : r.kf > 0
      · rw [if_pos hkf] at hfm
        obtain ⟨p1, p2, p3, p4⟩ :=
          term_of_accum_spec (idx2 c.ID) c.volume r.kf r.reactants r.stoich_r (hlen r hr).1
        rw [← Option.some_inj.1 hfm]
        exact ⟨r.kf, r.reactants, r.stoich_r, ⟨r, hr, Or.inl ⟨rfl, rfl, rfl⟩⟩, hkf,
          (hlen r hr).1, p1, p2, p3, p4⟩
      · rw [if_neg hkf] at hfm
        exact Option.noConfusion hfm
    · rw [if_neg hre] at hfm
      by_cases hpr : s ∈ r.product_IDs
      · rw [if_pos hpr] at hfm
        by_cases hkr : r.kr > 0
        · rw [if_pos hkr] at hfm
          obtain ⟨p1, p2, p3, p4⟩ :=
            term_of_accum_spec (idx2 c.ID) c.volume r.kr r.products r.stoich_p (hlen r hr).2
          rw [← Option.some_inj.1 hfm]
          exact ⟨r.kr, r.products, r.stoich_p, ⟨r, hr, Or.inr ⟨rfl, rfl, rfl⟩⟩, hkr,
            (hlen r hr).2, p1, p2, p3, p4⟩
        · rw [if_neg hkr] at hfm
          exact Option.noConfusion hfm
      · rw [if_neg hpr] at hfm
        exact Option.noConfusion hfm
  · unfold reactionSources at ht
    rw [List.mem_filterMap] at ht
    obtain ⟨r, hr, hfm⟩ := ht
    by_cases hre : s ∈ r.reactant_IDs
    · rw [if_pos hre] at hfm
      by_cases hkr : r.kr > 0
      · rw [if_pos hkr] at hfm
        obtain ⟨p1, p2, p3, p4⟩ :=
          term_of_accum_spec (idx2 c.ID) c.volume r.kr r.products r.stoich_p (hlen r hr).2
        rw [← Option.some_inj.1 hfm]
        exact ⟨r.kr, r.products, r.stoich_p, ⟨r, hr, Or.inr ⟨rfl, rfl, rfl⟩⟩, hkr,
          (hlen r hr).2, p1, p2, p3, p4⟩
      · rw [if_neg hkr] at hfm
        exact Option.noConfusion hfm
    · rw [if_neg hre] at hfm
      by_cases hpr : s ∈ r.product_IDs
      · rw [if_pos hpr] at hfm
        by_cases hkf : r.kf > 0
        · rw [if_pos hkf] at hfm
          obtain ⟨p1, p2, p3, p4⟩ :=
            term_of_accum_spec (idx2 c.ID) c.volume r.kf r.reactants r.stoich_r (hlen r hr).1
          rw [← Option.some_inj.1 hfm]
          exact ⟨r.kf, r.reactants, r.stoich_r, ⟨r, hr, Or.inl ⟨rfl, rfl, rfl⟩⟩, hkf,
            (hlen r hr).1, p1, p2, p3, p4⟩
        · rw [if_neg hkf] at hfm
          exact Option.noConfusion hfm
      · rw [if_neg hpr] at hfm
        exact Option.noConfusion hfm

/-- Witness for C1: in `exCompODE` (volume 3, reaction `A + A → B` with
`kf = 4`), the generated sink term is `(4/3, [0, 0])`: the rate is
`kf / V^(2-1)` and index 0 is repeated twice, the coefficient of A. -/
theorem reaction_terms_spec_witness :
    ∃ k sp st,
      (∃ r ∈ exCompODE.reactions,
        (k = r.kf ∧ sp = r.reactants ∧ st = r.stoich_r) ∨
        (k = r.kr ∧ sp = r.products ∧ st = r.stoich_p)) ∧
      0 < k ∧ st.length = sp.length ∧
      (1 < st.sum → (Term.mk (4/3) [0, 0]).rate = k / exCompODE.volume ^ (st.sum - 1)) ∧
      (st.sum = 1 → (Term.mk (4/3) [0, 0]).rate = k) ∧
      (Term.mk (4/3) [0, 0]).q_list =
        ((sp.zip st).map (fun p => List.replicate p.2 (exIdx exCompODE.ID p.1))).flatten ∧
      ((sp.map (exIdx exCompODE.ID)).Nodup →
        ∀ j (hj : j < sp.length),
          ((Term.mk (4/3) [0, 0]).q_list).count (exIdx exCompODE.ID (sp.get ⟨j, hj⟩)) =
            st.getD j 0) :=
  reaction_terms_spec exIdx exCompODE ("A") (by decide) (Term.mk (4/3) [0, 0]) (by
    simp only [reactionSinks, reactionSources, exCompODE, exRxn, exIdx,
      Reaction.reactant_IDs, Reaction.product_IDs, rxn_accum, term_of]
    norm_num [List.replicate])

/-- C2: for every state position `i` (compartment `c`, species `s`) and
every connection on `c` whose `species_rates` contain `s` with pair
`(k_out, k_in)`, the builder appends exactly one sink term
`(k_out / V_c, [i])` and exactly one source term
`(k_in / V_neighbor, [neighbor index of s])`: each matching connection
contributes both terms, the term counts equal the number of matching
connections, and every connection term is of this shape. -/
theorem connection_terms_spec (idx2 : String → String → Nat) (c : CompartmentODE)
    (s : String) (i : Nat) :
    (∀ e ∈ c.connections, ∀ ko ki, e.species_rates.lookup s = some (ko, ki) →
      Term.mk (ko / c.volume) [i] ∈ connSinks c s i ∧
      Term.mk (ki / e.other_volume) [idx2 e.other_lab s] ∈ connSources idx2 c s) ∧
    (connSinks c s i).length =
      (c.connections.filter (fun e => (e.species_rates.lookup s).isSome)).length ∧
    (connSources idx2 c s).length =
      (c.connections.filter (fun e => (e.species_rates.lookup s).isSome)).length ∧
    (∀ t ∈ connSinks c s i, ∃ e, e ∈ c.connections ∧ ∃ ko ki,
      e.species_rates.lookup s = some (ko, ki) ∧ t = Term.mk (ko / c.volume) [i]) ∧
    (∀ t ∈ connSources idx2 c s, ∃ e, e ∈ c.connections ∧ ∃ ko ki,
      e.species_rates.lookup s = some (ko, ki) ∧
      t = Term.mk (ki / e.other_volume) [idx2 e.other_lab s]) := by
  refine ⟨?_, ?_, ?_, ?_, ?_⟩
  · intro e he ko ki hl
    exact ⟨(connSinks_mem c s i _).2 ⟨e, he, ko, ki, hl, rfl⟩,
      (connSources_mem idx2 c s _).2 ⟨e, he, ko, ki, hl, rfl⟩⟩
  · unfold connSinks
    rw [length_filterMap_isSome]
    congr 1
    apply List.filter_congr
    intro e _
    cases e.species_rates.lookup s <;> rfl
  · unfold connSources
    rw [length_filterMap_isSome]
    congr 1
    apply List.filter_congr
    intro e _
    cases e.species_rates.lookup s <;> rfl
  · intro t ht
    exact (connSinks_mem c s i t).1 ht
  · intro t ht
    exact (connSources_mem idx2 c s t).1 ht

/-- Witness for C2: in `exCompODE` (volume 3) with its connection to
"c2" (volume 5, rates (7, 11) for species "A"), the sink term
`(7/3, [0])` and the source term `(11/5, [index of A in c2])` are both
generated. -/
theorem connection_terms_spec_witness :
    Term.mk (7 / exCompODE.volume) [0] ∈ connSinks exCompODE ("A") 0 ∧
    Term.mk (11 / exConnEntry.other_volume) [exIdx exConnEntry.other_lab ("A")] ∈
      connSources exIdx exCompODE ("A") :=
  (connection_terms_spec exIdx exCompODE ("A") 0).1 exConnEntry (by decide) 7 11 (by
    simp [exConnEntry])


/-! ## Theorems about model.py -/

/-- Triangle-style bound used by the minimum-image argument. -/
theorem abs_sub_le_abs_add_abs (a b : ℚ) : |a - b| ≤ |a| + |b| := by
  have h := abs_add a (-b)
  simpa [sub_eq_add_neg, abs_neg] using h

/-- The single-step periodic wrap of `model.py` lines 137-140 is the
minimum-image map whenever the raw displacement is at most one box
length in magnitude: the result lies in `[-L/2, L/2]`, differs from the
input by an integer multiple of `L`, and no other translate is
smaller. -/
theorem wrap_min_image (L dc : ℚ) (hL : 0 < L) (hdc : |dc| ≤ L) :
    |wrap L dc| ≤ L / 2 ∧
    (∃ k : ℤ, wrap L dc = dc + k * L) ∧
    (∀ n : ℤ, |wrap L dc| ≤ |dc + n * L|) := by
  rw [abs_le] at hdc
  obtain ⟨hdc1, hdc2⟩ := hdc
  have minimal : ∀ w : ℚ, ∀ k : ℤ, |w| ≤ L / 2 → w = dc + k * L →
      ∀ n : ℤ, |w| ≤ |dc + n * L| := by
    intro w k hw hk n
    by_cases hnk : n = k
    · rw [hnk, ← hk]
    · have hm : dc + n * L = w + ((n - k : ℤ) : ℚ) * L := by
        rw [hk]
        push_cast
        ring
      have h1 : (1 : ℚ) ≤ |((n - k : ℤ) : ℚ)| := by
        rw [← Int.cast_abs]
        exact_mod_cast Int.one_le_abs (sub_ne_zero.2 hnk)
      have h2 : L ≤ |((n - k : ℤ) : ℚ) * L| := by
        rw [abs_mul, abs_of_pos hL]
        nlinarith
      have h3 : |((n - k : ℤ) : ℚ) * L| ≤ |dc + n * L| + |w| := by
        have he : ((n - k : ℤ) : ℚ) * L = (dc + n * L) - w := by
          rw [hm]
          ring
        rw [he]
        exact abs_sub_le_abs_add_abs _ _
      linarith
  unfold wrap
  split_ifs with h1 h2
  · have hw : |dc + L| ≤ L / 2 := abs_le.2 ⟨by linarith, by linarith⟩
    refine ⟨hw, ⟨1, by push_cast; ring⟩, minimal _ 1 hw (by push_cast; ring)⟩
  · have hw : |dc - L| ≤ L / 2 := abs_le.2 ⟨by linarith, by linarith⟩
    refine ⟨hw, ⟨-1, by push_cast; ring⟩, minimal _ (-1) hw (by push_cast; ring)⟩
  · have hw : |dc| ≤ L / 2 := abs_le.2 ⟨by linarith, by linarith⟩
    refine ⟨hw, ⟨0, by push_cast; ring⟩, minimal _ 0 hw (by push_cast; ring)⟩

/-- C7: when a Ficks connection with a bound surface area but no bound
distance is resolved, the geometry step stores
`sq(Σ_axes wrapped²)` (`sq` abstracting `np.sqrt`) as the inter-center
distance; on each non-periodic axis the displacement between the
bounding-box centers is left unwrapped, and on each periodic axis it is
wrapped by the box length into `[-L/2, L/2]` — the minimum image:
congruent modulo `L` and no larger than any other translate — each
axis independently (provided each periodic-axis displacement is at most
one box length, as for centers inside the box). -/
theorem resolve_ficks_distance_spec (sq : ℚ → ℚ) (per : Fin 3 → Bool)
    (L : Fin 3 → ℚ) (c1 c2 : Compartment) (f : FicksConnection) (A : ℚ)
    (hA : f.surface_area = some A) (hd : f.ic_distance = none)
    (hper : ∀ i, per i = true → 0 < L i ∧ |dispAt c1.pos c2.pos i| ≤ L i) :
    completeFicks sq per L c1 c2 f =
      Except.ok { f with surface_area := some A,
                         ic_distance := some (sq (icDistSq per L c1.pos c2.pos)) } ∧
    icDistSq per L c1.pos c2.pos =
      ((0 + wdispAt per L c1.pos c2.pos 0 ^ 2) + wdispAt per L c1.pos c2.pos 1 ^ 2) +
        wdispAt per L c1.pos c2.pos 2 ^ 2 ∧
    ∀ i, (per i = false → wdispAt per L c1.pos c2.pos i = dispAt c1.pos c2.pos i) ∧
      (per i = true →
        |wdispAt per L c1.pos c2.pos i| ≤ L i / 2 ∧
        (∃ k : ℤ, wdispAt per L c1.pos c2.pos i = dispAt c1.pos c2.pos i + k * L i) ∧
        (∀ n : ℤ, |wdispAt per L c1.pos c2.pos i| ≤
          |dispAt c1.pos c2.pos i + n * L i|)) := by
  refine ⟨?_, rfl, ?_⟩
  · simp [completeFicks, surfaceAreaOf, hA, hd, icDist]
  · intro i
    constructor
    · intro hpf
      unfold wdispAt wrapIf
      rw [hpf]
      simp
    · intro hpt
      obtain ⟨hL, hdisp⟩ := hper i hpt
      have hw := wrap_min_image (L i) (dispAt c1.pos c2.pos i) hL hdisp
      unfold wdispAt wrapIf
      rw [hpt]
      simpa using hw

/-- Witness for C7: boxes centered at x = 8 and x = 1 in a box of
length 10 periodic along x: the raw displacement 7 wraps to -3, which
lies in `[-5, 5]` and is the minimum image. -/
theorem resolve_ficks_distance_spec_witness :
    |wdispAt exPer exL exCompP1.pos exCompP2.pos 0| ≤ exL 0 / 2 ∧
    (∃ k : ℤ, wdispAt exPer exL exCompP1.pos exCompP2.pos 0 =
      dispAt exCompP1.pos exCompP2.pos 0 + k * exL 0) ∧
    (∀ n : ℤ, |wdispAt exPer exL exCompP1.pos exCompP2.pos 0| ≤
      |dispAt exCompP1.pos exCompP2.pos 0 + n * exL 0|) :=
  ((resolve_ficks_distance_spec (fun q => q) exPer exL exCompP1 exCompP2 exFicksA 1
    rfl rfl (by
      intro i hi
      fin_cases i
      · refine ⟨by norm_num [exL], ?_⟩
        norm_num [dispAt, axisDisp, Box.axis, exCompP1, exCompP2, exBoxP1, exBoxP2,
          exL]
      · simp [exPer] at hi
      · simp [exPer] at hi)).2.2 0).2 (by rfl)

/-- C6 (counterexample): two boxes in edge-to-edge contact on both the
x and the y axis — an ambiguous adjacency — do not make the
surface-area derivation raise an error; the `if/elif` chain silently
picks the x axis and returns the y-z face area minimum 1. -/
theorem adjoining_face_ambiguous_counterexample :
    touchX exCompXY1.pos exCompXY2.pos = true ∧
    touchY exCompXY1.pos exCompXY2.pos = true ∧
    computeSurfaceArea exCompXY1 exCompXY2 = Except.ok 1 := by
  refine ⟨by norm_num [touchX, exCompXY1, exCompXY2, exBox0, exBoxXY2],
    by norm_num [touchY, exCompXY1, exCompXY2, exBox0, exBoxXY2], ?_⟩
  norm_num [computeSurfaceArea, touchX, Box.faceYZ, exCompXY1, exCompXY2, exBox0,
    exBoxXY2]

/-- C6 (amended): the surface-area derivation checks the axes in the
fixed order x, y, z and returns the minimum of the two compartments'
face areas on the first axis in edge-to-edge contact; only when no axis
touches does it raise an error.  Multi-axis contact is not detected. -/
theorem adjoining_face_first_axis (c1 c2 : Compartment) :
    (touchX c1.pos c2.pos = true →
      computeSurfaceArea c1 c2 = Except.ok (min c1.pos.faceYZ c2.pos.faceYZ)) ∧
    (touchX c1.pos c2.pos = false → touchY c1.pos c2.pos = true →
      computeSurfaceArea c1 c2 = Except.ok (min c1.pos.faceXZ c2.pos.faceXZ)) ∧
    (touchX c1.pos c2.pos = false → touchY c1.pos c2.pos = false →
      touchZ c1.pos c2.pos = true →
      computeSurfaceArea c1 c2 = Except.ok (min c1.pos.faceXY c2.pos.faceXY)) ∧
    (touchX c1.pos c2.pos = false → touchY c1.pos c2.pos = false →
      touchZ c1.pos c2.pos = false →
      ∃ msg, computeSurfaceArea c1 c2 = Except.error msg) := by
  unfold computeSurfaceArea
  refine ⟨fun h1 => ?_, fun h1 h2 => ?_, fun h1 h2 h3 => ?_, fun h1 h2 h3 => ?_⟩
  · simp [h1]
  · simp [h1, h2]
  · simp [h1, h2, h3]
  · simp [h1, h2, h3]

/-- Witness for C6 (amended): `exComp0` and `exComp1` touch on x only,
and the derived area is the y-z face minimum. -/
theorem adjoining_face_first_axis_witness :
    computeSurfaceArea exComp0 exComp1 =
      Except.ok (min exComp0.pos.faceYZ exComp1.pos.faceYZ) :=
  (adjoining_face_first_axis exComp0 exComp1).1
    (by norm_num [touchX, exComp0, exComp1, exBox0, exBox1])

/-- C3: `Model.flatten` is a pure function of the `Model` (the spec
guarantees flattening has no side effect on the source model:
compartments are copied, not moved), so whenever it succeeds, a second
call on the same model succeeds with the same compartment ID set and
the same resolved rate constants. -/
theorem flatten_deterministic (sq : ℚ → ℚ) (mdl : Model)
    (h : (Model.flatten sq mdl).isOk = true) :
    ∃ fm1 fm2, Model.flatten sq mdl = Except.ok fm1 ∧
      Model.flatten sq mdl = Except.ok fm2 ∧
      fm1.compartments.map Prod.fst = fm2.compartments.map Prod.fst ∧
      allRates fm1 = allRates fm2 := by
  cases hf : Model.flatten sq mdl with
  | error e =>
      rw [hf] at h
      exact Bool.noConfusion h
  | ok fm => exact ⟨fm, fm, rfl, rfl, rfl, rfl⟩

/-- Witness for C3: the two-compartment array model with a
geometry-resolvable Ficks connection flattens successfully, so the
idempotence theorem applies to it. -/
theorem flatten_deterministic_witness :
    ∃ fm1 fm2, Model.flatten (fun q => q) exModelOK = Except.ok fm1 ∧
      Model.flatten (fun q => q) exModelOK = Except.ok fm2 ∧
      fm1.compartments.map Prod.fst = fm2.compartments.map Prod.fst ∧
      allRates fm1 = allRates fm2 :=
  flatten_deterministic (fun q => q) exModelOK (by
    have h1 : buildNamespace exModelOK = Except.ok exFM0 := by
      simp [buildNamespace, addArrays, FlatModel.add_compartments,
        FlatModel.add_compartment, makeID, exModelOK, exComp0, exComp1, exFM0,
        List.lookup]
    have h2 : exFM0.find_missing_compartments = [] := by
      simp [FlatModel.find_missing_compartments, exFM0, exComp0, exComp1,
        Compartment.copy, List.lookup]
    have h3 : (resolveAll (fun q => q) exModelOK.periodic exModelOK.box_len
        exFM0.compartments (exFM0.compartments.map Prod.fst)).isOk = true := by
      simp [resolveAll, resolveCompartment, resolveLabels, resolveConnLabel,
        exFM0, exComp0, exComp1, Compartment.copy, exFicks, List.lookup,
        completeFicks, surfaceAreaOf, computeSurfaceArea, touchX, Box.faceYZ,
        exBox0, exBox1, icDist, icDistSq, wdispAt, wrapIf, dispAt, axisDisp,
        Box.axis, FicksConnection.resolve, isotropicInit, setConn, replaceOrAdd,
        exModelOK, Except.isOk, Except.toBool]
    unfold Model.flatten
    rw [h1]
    simp only [h2]
    cases hr : resolveAll (fun q => q) exModelOK.periodic exModelOK.box_len
        exFM0.compartments (exFM0.compartments.map Prod.fst) with
    | error e => rw [hr] at h3; exact Bool.noConfusion h3
    | ok m2 => rfl)

/-- C4: on any model whose flat namespace builds (no duplicate IDs) but
contains a connection referring to a compartment absent from that
namespace, `flatten` raises the missing-compartments error carrying
exactly the missing-ID list (the Python message interpolates this
list), and never returns a `FlatModel`; and whenever the namespace
phase itself fails, `flatten` fails too, so no partially-built
`FlatModel` ever escapes. -/
theorem flatten_missing_ref (sq : ℚ → ℚ) (mdl : Model) (fm0 : FlatModel)
    (x : String) (h0 : buildNamespace mdl = Except.ok fm0)
    (hx : x ∈ fm0.find_missing_compartments) :
    Model.flatten sq mdl =
      Except.error (FlattenErr.missing fm0.find_missing_compartments) ∧
    x ∈ fm0.find_missing_compartments ∧
    (∀ fm, Model.flatten sq mdl ≠ Except.ok fm) ∧
    (∀ mdl2 e, buildNamespace mdl2 = Except.error e →
      Model.flatten sq mdl2 = Except.error e) := by
  have hpos : 0 < fm0.find_missing_compartments.length :=
    List.length_pos.2 (List.ne_nil_of_mem hx)
  have hflat : Model.flatten sq mdl =
      Except.error (FlattenErr.missing fm0.find_missing_compartments) := by
    unfold Model.flatten
    rw [h0]
    simp only [if_pos hpos]
  refine ⟨hflat, hx, ?_, ?_⟩
  · intro fm hcon
    rw [hflat] at hcon
    exact Except.noConfusion hcon
  · intro mdl2 e he
    unfold Model.flatten
    rw [he]

/-- Witness for C4: the model whose only compartment has a connection
keyed "ghost" fails flatten with the missing list `["ghost"]`. -/
theorem flatten_missing_ref_witness :
    Model.flatten (fun q => q) exModelMissing =
      Except.error (FlattenErr.missing exFMghost.find_missing_compartments) ∧
    ("ghost") ∈ exFMghost.find_missing_compartments ∧
    (∀ fm, Model.flatten (fun q => q) exModelMissing ≠ Except.ok fm) ∧
    (∀ mdl2 e, buildNamespace mdl2 = Except.error e →
      Model.flatten (fun q => q) mdl2 = Except.error e) :=
  flatten_missing_ref (fun q => q) exModelMissing exFMghost ("ghost")
    (by
      simp [buildNamespace, addArrays, FlatModel.add_compartments,
        FlatModel.add_compartment, makeID, exModelMissing, exCompGhost, exFMghost,
        List.lookup])
    (by
      simp [FlatModel.find_missing_compartments, exFMghost, exCompGhost,
        Compartment.copy, List.lookup])

/-- C10: `Model.add_compartment` raises ValueError on a duplicate
compartment ID and AttributeError (the misspelled `comparments`
attribute) on every fresh ID; it never returns a model, so no
compartment is ever added through it. -/
theorem model_add_compartment_never_adds (m : Model) (c : Compartment) :
    ((m.compartments.lookup c.ID).isSome = true →
      m.add_compartment c = Except.error (PyErr.valueError
        ("Error! Duplicate compartment ID in model (" ++ c.ID ++ (")")))) ∧
    ((m.compartments.lookup c.ID).isSome = false →
      ∃ msg, m.add_compartment c = Except.error (PyErr.attributeError msg)) ∧
    (∀ m2, m.add_compartment c ≠ Except.ok m2) := by
  unfold Model.add_compartment
  refine ⟨fun h => by rw [if_pos h], fun h => ⟨_, by rw [if_neg (by simp [h])]⟩, ?_⟩
  intro m2
  split_ifs <;> exact fun hcon => Except.noConfusion hcon

/-- Witness for C10: re-adding ID "a" to `exModelDup` raises
ValueError; adding it to the empty model raises AttributeError. -/
theorem model_add_compartment_never_adds_witness :
    exModelDup.add_compartment exCompA = Except.error (PyErr.valueError
      ("Error! Duplicate compartment ID in model (" ++ exCompA.ID ++ (")"))) ∧
    (∃ msg, exModelEmpty.add_compartment exCompA =
      Except.error (PyErr.attributeError msg)) :=
  ⟨(model_add_compartment_never_adds exModelDup exCompA).1
      (by simp [exModelDup, exCompA, List.lookup]),
   (model_add_compartment_never_adds exModelEmpty exCompA).2.1
      (by simp [exModelEmpty, List.lookup])⟩

/-! ## Theorems about set_q (ODESystem.py) -/

/-- Pointwise value of the `set_q` write loop. -/
theorem foldl_update_eval (g : Nat → ℚ) (l : List Nat) :
    ∀ (qv : Nat → ℚ) (j : Nat),
      (l.foldl (fun q i => Function.update q i (g i)) qv) j =
        if j ∈ l then g j else qv j := by
  induction l with
  | nil =>
      intro qv j
      simp
  | cons x xs ih =>
      intro qv j
      rw [List.foldl_cons, ih]
      by_cases hj : j ∈ xs
      · simp [hj, List.mem_cons]
      · by_cases hx : j = x
        · subst hx
          simp [hj, Function.update_same]
        · simp [hj, hx, Function.update_noteq hx]

/-- C8: `set_q` converts a concentration (mol/L) to a per-index count
`mag · V(compartment(i)) · NA` using that index's own compartment's
volume, a molar amount to `mag · NA`, stores a dimensionless quantity
or a bare number unchanged, leaves all other indices untouched, and
raises a hard error (no write at all) for any other unit. -/
theorem set_q_spec (sys : SysState) (idxs : List Nat) :
    (∀ mag name, set_q sys idxs (QInput.withUnits mag (QUnits.other name)) =
      Except.error ("Quantity values should be either mol, mol/L or dimensionless")) ∧
    (∀ mag, ∃ s2, set_q sys idxs (QInput.withUnits mag QUnits.mol_per_L) =
        Except.ok s2 ∧
      (∀ i, i ∈ idxs → s2.q_val i = mag * sys.volumeOf (sys.compartment i) * NA) ∧
      (∀ i, i ∉ idxs → s2.q_val i = sys.q_val i)) ∧
    (∀ mag, ∃ s2, set_q sys idxs (QInput.withUnits mag QUnits.mol) = Except.ok s2 ∧
      (∀ i, i ∈ idxs → s2.q_val i = mag * NA) ∧
      (∀ i, i ∉ idxs → s2.q_val i = sys.q_val i)) ∧
    (∀ mag, ∃ s2, set_q sys idxs (QInput.withUnits mag QUnits.dimensionless) =
        Except.ok s2 ∧
      (∀ i, i ∈ idxs → s2.q_val i = mag) ∧
      (∀ i, i ∉ idxs → s2.q_val i = sys.q_val i)) ∧
    (∀ mag, ∃ s2, set_q sys idxs (QInput.bare mag) = Except.ok s2 ∧
      (∀ i, i ∈ idxs → s2.q_val i = mag) ∧
      (∀ i, i ∉ idxs → s2.q_val i = sys.q_val i)) := by
  refine ⟨fun mag name => rfl, fun mag => ⟨_, rfl, ?_, ?_⟩,
    fun mag => ⟨_, rfl, ?_, ?_⟩, fun mag => ⟨_, rfl, ?_, ?_⟩,
    fun mag => ⟨_, rfl, ?_, ?_⟩⟩ <;> intro i hi <;> simp <;>
    rw [foldl_update_eval] <;> simp [hi] <;> try exact Or.inl (mul_comm _ _)

/-- Witness for C8: in `exSys` (volume 5), setting index 0 to a
concentration of 2 mol/L stores `2·5·NA` counts, and a quantity in any
other unit is rejected. -/
theorem set_q_spec_witness :
    (∃ s2, set_q exSys [0] (QInput.withUnits 2 QUnits.mol_per_L) = Except.ok s2 ∧
      s2.q_val 0 = 2 * 5 * NA) ∧
    set_q exSys [0] (QInput.withUnits 3 (QUnits.other ("meter"))) =
      Except.error ("Quantity values should be either mol, mol/L or dimensionless") := by
  obtain ⟨s2, hok, hin, hout⟩ := (set_q_spec exSys [0]).2.1 2
  refine ⟨⟨s2, hok, ?_⟩, (set_q_spec exSys [0]).1 3 ("meter")⟩
  rw [hin 0 (by simp)]
  norm_num [exSys]

end OpenRXN
